import Mathlib

/-!
Verification of the majordomo-gateway request pipeline.

Shallow embedding of the Go sources:
  internal/provider/provider.go   (provider detection)
  internal/provider/anthropic.go  (Anthropic parser, OpenAI→Anthropic translation)
  internal/pricing/service.go     (cost calculation)
  internal/proxy                  (header hygiene: copyHeaders / copyResponseHeaders)
  internal/auth                   (ProxyResolver.ResolveProxyKey)
  internal/secrets/aes.go         (secret box Encrypt / Decrypt)
  internal/storage                (writeLog metadata split)

Go strings are modelled by Lean `String`, Go `int` by `Int`, Go `float64`
by exact rationals `ℚ` (the cost arithmetic here is exact in ℚ), Go maps
by lookup functions `α → Option β`, and fallible operations by `Except`.
-/

/-- Go `strings.ToLower` restricted to ASCII (all names involved are ASCII),
mapping `Char.toLower` over the character sequence. -/
def goToLower (s : String) : String :=
  ⟨s.data.map Char.toLower⟩

/-- Go `strings.HasPrefix s pre`, on the character sequence of the string. -/
def goStartsWith (s pre : String) : Bool :=
  pre.data.isPrefixOf s.data

/-- Substring occurrence on character lists (scan for a matching suffix start). -/
def listHasSub (sub : List Char) : List Char → Bool
  | [] => sub.isEmpty
  | c :: t => sub.isPrefixOf (c :: t) || listHasSub sub t

/-- Go `strings.Contains s sub`, on the character sequence of the string. -/
def goContainsSub (s sub : String) : Bool :=
  listHasSub sub.data s.data

/-! ## Provider detection (internal/provider/provider.go) -/

/-- Result of provider detection: provider tag and default base URL. -/
structure ProviderInfo where
  provider : String
  baseURL  : String
deriving Repr, DecidableEq

/-- `resolveExplicitProvider` from provider.go lines 41-62: switch on the
lower-cased header value over the enumerated provider tags. -/
def resolveExplicitProvider (name : String) : ProviderInfo :=
  match goToLower name with
  | "openai"           => ⟨"openai", "https://api.openai.com"⟩
  | "anthropic"        => ⟨"anthropic", "https://api.anthropic.com"⟩
  | "gemini"           => ⟨"gemini", "https://generativelanguage.googleapis.com"⟩
  | "gemini-openai"    => ⟨"gemini-openai", "https://generativelanguage.googleapis.com/v1beta/openai"⟩
  | "anthropic-openai" => ⟨"anthropic-openai", "https://api.anthropic.com"⟩
  | "azure"            => ⟨"azure", ""⟩
  | "bedrock"          => ⟨"bedrock", ""⟩
  | _                  => ⟨"unknown", ""⟩

/-- `detectFromPath` from provider.go lines 64-82. -/
def detectFromPath (path : String) : ProviderInfo :=
  if goStartsWith path "/v1/chat/completions" || goStartsWith path "/v1/completions"
      || goStartsWith path "/v1/embeddings" || goStartsWith path "/v1/responses" then
    ⟨"openai", "https://api.openai.com"⟩
  else if goStartsWith path "/v1/messages" then
    ⟨"anthropic", "https://api.anthropic.com"⟩
  else if goContainsSub path "generateContent" || goContainsSub path "streamGenerateContent" then
    ⟨"gemini", "https://generativelanguage.googleapis.com"⟩
  else
    ⟨"openai", "https://api.openai.com"⟩

/-- `Detect` from provider.go lines 33-39: a caller-supplied
`x-majordomo-provider` header wins; else path rules.  The header map is
modelled as a lookup function. -/
def Detect (path : String) (headers : String → Option String) : ProviderInfo :=
  match headers "x-majordomo-provider" with
  | some explicit => resolveExplicitProvider explicit
  | none => detectFromPath path

/-! ## Pricing (internal/pricing/service.go) -/

/-- `ModelPricing` from service.go: three per-million-token rates. -/
structure ModelPricing where
  inputPricePerMillion  : ℚ
  outputPricePerMillion : ℚ
  cachedPricePerMillion : ℚ
deriving Repr, DecidableEq

/-- `models.UsageMetrics` token fields used by the pricing service. -/
structure UsageMetrics where
  provider            : String := ""
  model               : String := ""
  inputTokens         : Int := 0
  outputTokens        : Int := 0
  cachedTokens        : Int := 0
  cacheCreationTokens : Int := 0
deriving Repr, DecidableEq

/-- `models.Cost`: three monetary costs plus the pricing-coverage flag. -/
structure Cost where
  inputCost       : ℚ := 0
  outputCost      : ℚ := 0
  totalCost       : ℚ := 0
  modelAliasFound : Bool := false
deriving Repr, DecidableEq

/-- The pricing `Service`'s two maps (reload-atomic in Go; a snapshot here). -/
structure Service where
  pricing : String → Option ModelPricing
  aliases : String → Option String

/-- `Service.Calculate` from service.go lines 195-221: direct lookup, alias
fallback, then the cost arithmetic (exact in ℚ). -/
def Service.Calculate (s : Service) (metrics : UsageMetrics) : Cost :=
  let found : Option ModelPricing :=
    match s.pricing metrics.model with
    | some p => some p
    | none =>
      match s.aliases metrics.model with
      | some aliasedModel => s.pricing aliasedModel
      | none => none
  match found with
  | none => { modelAliasFound := false }
  | some pricing =>
    let inputCost := ((metrics.inputTokens - metrics.cachedTokens : Int) : ℚ) *
        pricing.inputPricePerMillion / 1000000
    let cachedCost := (metrics.cachedTokens : ℚ) * pricing.cachedPricePerMillion / 1000000
    let outputCost := (metrics.outputTokens : ℚ) * pricing.outputPricePerMillion / 1000000
    { inputCost := inputCost + cachedCost
      outputCost := outputCost
      totalCost := inputCost + cachedCost + outputCost
      modelAliasFound := true }

/-- `remotePriceEntry` from service.go: one record of the remote catalog;
`input_cached` may be absent. -/
structure RemotePriceEntry where
  id          : String
  input       : ℚ
  output      : ℚ
  inputCached : Option ℚ
deriving Repr, DecidableEq

/-- The catalog-entry conversion inside `fetchRemote` (service.go lines
130-139): an omitted `input_cached` becomes a zero cached rate. -/
def remotePricingOf (e : RemotePriceEntry) : ModelPricing :=
  { inputPricePerMillion := e.input
    outputPricePerMillion := e.output
    cachedPricePerMillion := match e.inputCached with | some c => c | none => 0 }

/-- Model resolution as the spec describes it: `prices` directly, falling
back to one `aliases` indirection before a second `prices` lookup. -/
def specResolveModel (s : Service) (model : String) : Option ModelPricing :=
  match s.pricing model with
  | some p => some p
  | none =>
    match s.aliases model with
    | some aliased => s.pricing aliased
    | none => none

/-- `Calculate` as the spec's words state it: zero costs and
`model_alias_found = false` on miss; otherwise
`input_cost = (input − cached)·input_rate/1e6 + cached·cached_rate/1e6`,
`output_cost = output·output_rate/1e6`, `total = input_cost + output_cost`. -/
def specCalculate (s : Service) (m : UsageMetrics) : Cost :=
  match specResolveModel s m.model with
  | none => { inputCost := 0, outputCost := 0, totalCost := 0, modelAliasFound := false }
  | some p =>
    let ic := ((m.inputTokens - m.cachedTokens : Int) : ℚ) * p.inputPricePerMillion / 1000000
        + (m.cachedTokens : ℚ) * p.cachedPricePerMillion / 1000000
    let oc := (m.outputTokens : ℚ) * p.outputPricePerMillion / 1000000
    { inputCost := ic, outputCost := oc, totalCost := ic + oc, modelAliasFound := true }

/-! ## Anthropic response parsing (internal/provider/anthropic.go) -/

/-- The `usage` object of a decoded Anthropic response body.  Absent JSON
fields decode to zero, matching Go struct decoding. -/
structure AnthropicUsageRaw where
  inputTokens              : Int := 0
  outputTokens             : Int := 0
  cacheReadInputTokens     : Int := 0
  cacheCreationInputTokens : Int := 0
deriving Repr, DecidableEq

/-- A well-formed (successfully decoded) Anthropic response body, the
`anthropicResponse` struct of anthropic.go. -/
structure AnthropicResponseBody where
  model : String := ""
  usage : AnthropicUsageRaw := {}
deriving Repr, DecidableEq

/-- `AnthropicParser.ParseResponse` from anthropic.go lines 21-40, on an
already-decoded body: input tokens are normalized by adding cache-read and
cache-creation counts. -/
def AnthropicParser.ParseResponse (resp : AnthropicResponseBody) : UsageMetrics :=
  let totalInput := resp.usage.inputTokens + resp.usage.cacheReadInputTokens +
      resp.usage.cacheCreationInputTokens
  { provider := "anthropic"
    model := resp.model
    inputTokens := totalInput
    outputTokens := resp.usage.outputTokens
    cachedTokens := resp.usage.cacheReadInputTokens
    cacheCreationTokens := resp.usage.cacheCreationInputTokens }

/-! ## OpenAI → Anthropic request translation (internal/provider/anthropic.go) -/

/-- One chat message of the OpenAI wire format. -/
structure OpenAIMessage where
  role    : String
  content : String
deriving Repr, DecidableEq

/-- A decoded OpenAI chat-completions request (`OpenAIRequest`); optional
JSON fields are `Option`. -/
structure OpenAIRequestBody where
  model       : String := ""
  messages    : List OpenAIMessage := []
  maxTokens   : Option Int := none
  temperature : Option ℚ := none
  topP        : Option ℚ := none
  stream      : Option Bool := none
deriving Repr, DecidableEq

/-- One message of the Anthropic messages format. -/
structure AnthropicMessage where
  role    : String
  content : String
deriving Repr, DecidableEq

/-- A decoded Anthropic messages request (`AnthropicRequest`). -/
structure AnthropicRequestBody where
  model       : String := ""
  messages    : List AnthropicMessage := []
  system      : String := ""
  maxTokens   : Int := 0
  temperature : Option ℚ := none
  topP        : Option ℚ := none
  stream      : Option Bool := none
deriving Repr, DecidableEq

/-- `TranslateOpenAIToAnthropic` from anthropic.go lines 329-370 on a decoded
request.  The Go loop assigns `System` for EVERY system-role message (so the
last one wins) and appends all others; `max_tokens` defaults to 4096; the
translated path is `/v1/messages`. -/
def TranslateOpenAIToAnthropic (req : OpenAIRequestBody) : AnthropicRequestBody × String :=
  let acc := req.messages.foldl
    (fun (acc : String × List AnthropicMessage) msg =>
      if msg.role = "system" then (msg.content, acc.2)
      else (acc.1, acc.2 ++ [⟨msg.role, msg.content⟩]))
    ("", [])
  ({ model := req.model
     temperature := req.temperature
     topP := req.topP
     stream := req.stream
     system := acc.1
     messages := acc.2
     maxTokens := match req.maxTokens with | some mt => mt | none => 4096 },
   "/v1/messages")

/-! ## Header hygiene (internal/proxy upstream client) -/

/-- `hopByHopHeaders` from the upstream client: the RFC-7230 hop-by-hop set
plus `accept-encoding` (the Go transport handles compression). -/
def hopByHopHeaders : List String :=
  ["connection", "keep-alive", "proxy-authenticate", "proxy-authorization",
   "te", "trailers", "transfer-encoding", "upgrade", "host", "content-length",
   "accept-encoding"]

/-- The RFC-7230 hop-by-hop set as the spec enumerates it (no
`accept-encoding`). -/
def rfc7230HopByHop : List String :=
  ["connection", "keep-alive", "proxy-authenticate", "proxy-authorization",
   "te", "trailers", "transfer-encoding", "upgrade", "host", "content-length"]

/-- `copyHeaders` from the upstream client: drop `x-majordomo`-prefixed and
hop-by-hop headers; keep everything else (the Go loop `Add`s each kept
key/values pair onto the outbound request).  Headers are modelled as a list
of (name, values) pairs. -/
def copyHeaders (src : List (String × List String)) : List (String × List String) :=
  src.filter fun kv =>
    let lowerKey := goToLower kv.1
    !(goStartsWith lowerKey "x-majordomo" || hopByHopHeaders.contains lowerKey)

/-- `copyResponseHeaders` from the upstream client: drop hop-by-hop headers
and `content-encoding` on the response copy-back. -/
def copyResponseHeaders (src : List (String × List String)) : List (String × List String) :=
  src.filter fun kv =>
    let lowerKey := goToLower kv.1
    !(hopByHopHeaders.contains lowerKey || lowerKey == "content-encoding")

/-! ## Log-sink metadata split (storage writeLog) -/

/-- The metadata partition inside `PostgresStorage.writeLog` (lines 86-100):
with an owner, `indexed` keeps exactly the raw pairs whose key is in the
owner's active-key set fetched at write time; with no owner it is empty.
`activeKeysOf` models the `ActiveKeysCache.GetActiveKeys` result (a Go
`map[string]bool`: absent keys read as `false`). -/
def writeLogIndexedMetadata (owner : Option Nat) (rawMetadata : List (String × String))
    (activeKeysOf : Nat → String → Bool) : List (String × String) :=
  match owner with
  | some o => rawMetadata.filter fun kv => activeKeysOf o kv.1
  | none => []

/-! ## Secret box (internal/secrets/aes.go)

The base64 transport layer of the Go code is a bijection between byte
sequences and their text encoding; the box is modelled at the byte level
(`List Nat`), which is where all of its behaviour lives.  The AES-GCM
primitive itself is Go library code, modelled as an abstract authenticated
cipher `AEADScheme`; its two standard laws (round trip and authenticity)
appear as hypotheses of the theorems. -/

/-- An authenticated cipher with a fixed nonce width: `gcmSeal nonce p`
produces the authenticated ciphertext, `gcmOpen nonce c` recovers the
plaintext or fails. -/
structure AEADScheme where
  nonceSize : Nat
  gcmSeal   : List Nat → List Nat → List Nat
  gcmOpen   : List Nat → List Nat → Option (List Nat)

/-- `AESStore.Encrypt` (aes.go lines 43-61) at the byte level: the fresh
`nonce` is passed explicitly (Go draws it from `crypto/rand`); the token is
the nonce prepended to the sealed output (`gcm.Seal(nonce, nonce, plaintext,
nil)`). -/
def AESStore.Encrypt (g : AEADScheme) (nonce plaintext : List Nat) : List Nat :=
  nonce ++ g.gcmSeal nonce plaintext

/-- `AESStore.Decrypt` (aes.go lines 64-92) at the byte level: reject tokens
shorter than the nonce width, split nonce and ciphertext, open. -/
def AESStore.Decrypt (g : AEADScheme) (data : List Nat) : Except String (List Nat) :=
  if data.length < g.nonceSize then
    .error "ciphertext too short"
  else
    match g.gcmOpen (data.take g.nonceSize) (data.drop g.nonceSize) with
    | some plaintext => .ok plaintext
    | none => .error "failed to decrypt"

/-! ## Proxy-key resolver (internal/auth, part of the auth package) -/

/-- `models.ProxyKey`: the stored proxy-key record (ids as `Nat`). -/
structure ProxyKeyRec where
  id                : Nat
  keyHash           : String
  majordomoAPIKeyID : Nat
  isActive          : Bool
  revokedAt         : Option Nat
deriving Repr, DecidableEq

/-- `models.ProviderMapping`: `(proxy_key_id, provider) → encrypted key`. -/
structure ProviderMappingRec where
  proxyKeyID   : Nat
  provider     : String
  encryptedKey : String
deriving Repr, DecidableEq

/-- The storage interface used by the resolver (`storage.ProxyKeyStorage`),
as pure fallible lookups. -/
structure ProxyKeyStore where
  getProxyKeyByHash  : String → Except String (Option ProxyKeyRec)
  getProviderMapping : Nat → String → Except String (Option ProviderMappingRec)

/-- `cachedProxyKey` from the resolver: note that the owner id
(`majordomoAPIKeyID`) is stored in the cache entry. -/
structure CachedProxyKey where
  proxyKeyID        : Nat
  majordomoAPIKeyID : Nat
  isActive          : Bool
  revokedAt         : Option Nat
  expiresAt         : Nat
deriving Repr, DecidableEq

/-- The resolver's mutable state: the per-hash record cache and the
per-`hash:provider` decrypted-credential cache, as association lists. -/
structure ResolverState where
  cache     : List (String × CachedProxyKey) := []
  provCache : List (String × String) := []
  cacheTTL  : Nat := 300
deriving Repr, DecidableEq

/-- The failure modes of `ResolveProxyKey`, one per Go error value. -/
inductive ProxyResolveErr
  | storageErr (msg : String)
  | notFound
  | revoked
  | inactive
  | wrongOwner
  | noProviderMapping (provider : String)
  | decryptErr (msg : String)
deriving Repr, DecidableEq

/-- Association-list update (later Go map writes shadow earlier entries). -/
def alistInsert (k : String) (v : α) (l : List (String × α)) : List (String × α) :=
  (k, v) :: l

/-- `ProxyResolver.ResolveProxyKey` as a state-passing function.  `hash`
stands for `HashAPIKey` (SHA-256 hex, injective on the inputs of interest),
`decrypt` for the secret store, `now` for `time.Now()`.  Mirrors the Go
control flow: passthrough on missing `mdm_pk_` tag; then the
provider-credential cache consulted together with the record cache and its
expiry — with NO owner comparison on that path; then the DB path with its
active/revocation/owner/mapping/decrypt checks, finally populating both
caches. -/
def ResolveProxyKey (store : ProxyKeyStore) (decrypt : String → Except String String)
    (hash : String → String) (r : ResolverState) (now : Nat)
    (authKey provider : String) (majordomoKeyID : Nat) :
    Except ProxyResolveErr (String × Option Nat) × ResolverState :=
  if !goStartsWith authKey "mdm_pk_" then
    (.ok ("", none), r)
  else
    let h := hash authKey
    let provCacheKey := h ++ ":" ++ provider
    let cachedHit : Option (String × Option Nat) :=
      match (r.provCache.lookup provCacheKey : Option String) with
      | some cached =>
        match (r.cache.lookup h : Option CachedProxyKey) with
        | some pkc => if now < pkc.expiresAt then some (cached, some pkc.proxyKeyID) else none
        | none => none
      | none => none
    match cachedHit with
    | some hit => (.ok hit, r)
    | none =>
      match store.getProxyKeyByHash h with
      | .error e => (.error (.storageErr e), r)
      | .ok none => (.error .notFound, r)
      | .ok (some proxyKey) =>
        if !proxyKey.isActive then
          (match proxyKey.revokedAt with
           | some _ => .error .revoked
           | none => .error .inactive, r)
        else if proxyKey.majordomoAPIKeyID ≠ majordomoKeyID then
          (.error .wrongOwner, r)
        else
          match store.getProviderMapping proxyKey.id provider with
          | .error e => (.error (.storageErr e), r)
          | .ok none => (.error (.noProviderMapping provider), r)
          | .ok (some mapping) =>
            match decrypt mapping.encryptedKey with
            | .error e => (.error (.decryptErr e), r)
            | .ok decrypted =>
              let entry : CachedProxyKey :=
                { proxyKeyID := proxyKey.id
                  majordomoAPIKeyID := proxyKey.majordomoAPIKeyID
                  isActive := proxyKey.isActive
                  revokedAt := proxyKey.revokedAt
                  expiresAt := now + r.cacheTTL }
              let r' : ResolverState :=
                { r with cache := alistInsert h entry r.cache
                         provCache := alistInsert provCacheKey decrypted r.provCache }
              (.ok (decrypted, some proxyKey.id), r')

/-! ## Spec-side tables and concrete exemplars -/

/-- The enumerated providers of spec §4.D with their default base URLs, as a
lookup table keyed by the lower-cased tag. -/
def recognizedProviders : List (String × ProviderInfo) :=
  [("openai", ⟨"openai", "https://api.openai.com"⟩),
   ("anthropic", ⟨"anthropic", "https://api.anthropic.com"⟩),
   ("gemini", ⟨"gemini", "https://generativelanguage.googleapis.com"⟩),
   ("gemini-openai", ⟨"gemini-openai", "https://generativelanguage.googleapis.com/v1beta/openai"⟩),
   ("anthropic-openai", ⟨"anthropic-openai", "https://api.anthropic.com"⟩),
   ("azure", ⟨"azure", ""⟩),
   ("bedrock", ⟨"bedrock", ""⟩)]

/-- Exemplar store for the resolver scenarios: one active proxy key (id 1,
hash `mdm_pk_k`) owned by operator key 10, with an `openai` mapping whose
ciphertext is `enc`. -/
def proxyStoreEx : ProxyKeyStore :=
  { getProxyKeyByHash := fun h =>
      if h = "mdm_pk_k" then .ok (some ⟨1, "mdm_pk_k", 10, true, none⟩) else .ok none
    getProviderMapping := fun pid prov =>
      if pid = 1 ∧ prov = "openai" then .ok (some ⟨1, "openai", "enc"⟩) else .ok none }

/-- Exemplar secret store: `enc` decrypts to `sk-real`. -/
def decryptEx : String → Except String String :=
  fun c => if c = "enc" then .ok "sk-real" else .error "unknown ciphertext"

/-- Resolver state after operator key 10 resolves `mdm_pk_k` for `openai` at
time 0 (first call of the C1 scenario), populating both caches. -/
def resolverStateEx : ResolverState :=
  (ResolveProxyKey proxyStoreEx decryptEx id {} 0 "mdm_pk_k" "openai" 10).2

/-- Exemplar pricing service: one model `m` priced (1, 1, 0) per million. -/
def svcNegEx : Service :=
  { pricing := fun s => if s = "m" then some ⟨1, 1, 0⟩ else none
    aliases := fun _ => none }

/-- Identity authenticated cipher: satisfies both AEAD laws trivially. -/
def aeadIdEx : AEADScheme :=
  { nonceSize := 2, gcmSeal := fun _ p => p, gcmOpen := fun _ c => some c }

/-! ## Helper lemmas -/

/-- A name that does not start with `x-majordomo` does not start with the
longer `x-majordomo-` either. -/
lemma goStartsWith_majordomo_dash {l : String}
    (h : goStartsWith l "x-majordomo" = false) :
    goStartsWith l "x-majordomo-" = false := by
  cases hb : goStartsWith l "x-majordomo-" with
  | false => rfl
  | true =>
    exfalso
    unfold goStartsWith at h hb
    rw [List.isPrefixOf_iff_prefix] at hb
    have hpre : ("x-majordomo".data) <+: l.data :=
      List.IsPrefix.trans ⟨['-'], by decide⟩ hb
    rw [Bool.eq_false_iff] at h
    exact h (List.isPrefixOf_iff_prefix.mpr hpre)

/-- The spec's RFC-7230 hop-by-hop set is contained in the source's
`hopByHopHeaders` map. -/
lemma rfc_subset_hop {x : String}
    (h : hopByHopHeaders.contains x = false) :
    rfc7230HopByHop.contains x = false := by
  cases hb : rfc7230HopByHop.contains x with
  | false => rfl
  | true =>
    exfalso
    have hmem : x ∈ rfc7230HopByHop := by
      simpa using hb
    have hmem2 : x ∈ hopByHopHeaders := by
      fin_cases hmem <;> decide
    simp [hmem2] at h

/-- `Calculate` and its spec-side restatement agree definitionally. -/
lemma calculate_eq_specCalculate (s : Service) (m : UsageMetrics) :
    s.Calculate m = specCalculate s m := rfl

/-! ## Claims -/

/-- C2: every header kept by `copyHeaders` has a lower-cased name that
neither carries the `x-majordomo-` tag, nor is in the RFC-7230 hop-by-hop
set, nor is `accept-encoding`; every header kept by `copyResponseHeaders`
is outside the hop-by-hop set and is not `content-encoding`. -/
theorem claim_C2_header_hygiene (src : List (String × List String)) :
    (∀ kv ∈ copyHeaders src,
      goStartsWith (goToLower kv.1) "x-majordomo-" = false ∧
      rfc7230HopByHop.contains (goToLower kv.1) = false ∧
      goToLower kv.1 ≠ "accept-encoding")
    ∧ (∀ kv ∈ copyResponseHeaders src,
      rfc7230HopByHop.contains (goToLower kv.1) = false ∧
      goToLower kv.1 ≠ "content-encoding") := by
  constructor
  · intro kv hkv
    have hp := (List.mem_filter.mp hkv).2
    simp only [Bool.not_eq_true', Bool.or_eq_false_iff] at hp
    obtain ⟨h1, h2⟩ := hp
    refine ⟨goStartsWith_majordomo_dash h1, rfc_subset_hop h2, ?_⟩
    intro hac
    rw [hac] at h2
    simp [hopByHopHeaders] at h2
  · intro kv hkv
    have hp := (List.mem_filter.mp hkv).2
    simp only [Bool.not_eq_true', Bool.or_eq_false_iff] at hp
    obtain ⟨h1, h2⟩ := hp
    refine ⟨rfc_subset_hop h1, ?_⟩
    intro hce
    rw [hce] at h2
    simp at h2

/-- C2 witness: a kept `Content-Type` header on a concrete inbound map
satisfies all the hygiene facts. -/
theorem claim_C2_witness :
    goStartsWith (goToLower "Content-Type") "x-majordomo-" = false ∧
    rfc7230HopByHop.contains (goToLower "Content-Type") = false ∧
    goToLower "Content-Type" ≠ "accept-encoding" := by
  exact (claim_C2_header_hygiene
      [("X-Majordomo-Key", ["k"]), ("Content-Type", ["application/json"])]).1
    ("Content-Type", ["application/json"]) (by decide)

/-- C3: `Calculate` resolves the model directly then through one alias
indirection; a miss yields all-zero costs with `model_alias_found = false`,
a hit yields exactly the spec's cost formulas (with `total = input_cost +
output_cost`); and a remote catalog entry without `input_cached` gets a zero
cached rate. -/
theorem claim_C3_calculate_formulas (s : Service) (m : UsageMetrics) (e : RemotePriceEntry) :
    s.Calculate m = specCalculate s m
    ∧ (remotePricingOf { e with inputCached := none }).cachedPricePerMillion = 0 := by
  exact ⟨calculate_eq_specCalculate s m, rfl⟩

/-- C4 counterexample: with model `m` priced (input 1, output 1, cached 0)
per million and usage `input_tokens = 0, cached_tokens = 1` (cached exceeds
input), the model resolves but the returned input and total costs are
negative — the claim's "non-negative for all token counts including
cached_tokens > input_tokens" fails. -/
theorem claim_C4_counterexample :
    (svcNegEx.Calculate { model := "m", cachedTokens := 1 }).modelAliasFound = true
    ∧ (svcNegEx.Calculate { model := "m", cachedTokens := 1 }).inputCost < 0
    ∧ (svcNegEx.Calculate { model := "m", cachedTokens := 1 }).totalCost < 0 := by
  refine ⟨rfl, ?_, ?_⟩ <;> norm_num [Service.Calculate, svcNegEx]

/-- C4 amended: when the model resolves to non-negative rates and the token
counts satisfy `0 ≤ cached ≤ input` and `0 ≤ output`, all three returned
costs are non-negative. -/
theorem claim_C4_amended_nonneg (s : Service) (m : UsageMetrics) (p : ModelPricing)
    (hres : specResolveModel s m.model = some p)
    (hin : 0 ≤ p.inputPricePerMillion) (hout : 0 ≤ p.outputPricePerMillion)
    (hcr : 0 ≤ p.cachedPricePerMillion)
    (hc0 : 0 ≤ m.cachedTokens) (hci : m.cachedTokens ≤ m.inputTokens)
    (ho : 0 ≤ m.outputTokens) :
    0 ≤ (s.Calculate m).inputCost ∧ 0 ≤ (s.Calculate m).outputCost ∧
    0 ≤ (s.Calculate m).totalCost := by
  rw [calculate_eq_specCalculate]
  unfold specCalculate
  rw [hres]
  have h1 : (0 : ℚ) ≤ ((m.inputTokens - m.cachedTokens : Int) : ℚ) := by
    exact_mod_cast sub_nonneg.mpr hci
  have h2 : (0 : ℚ) ≤ (m.cachedTokens : ℚ) := by exact_mod_cast hc0
  have h3 : (0 : ℚ) ≤ (m.outputTokens : ℚ) := by exact_mod_cast ho
  have hic : (0 : ℚ) ≤
      ((m.inputTokens - m.cachedTokens : Int) : ℚ) * p.inputPricePerMillion / 1000000
      + (m.cachedTokens : ℚ) * p.cachedPricePerMillion / 1000000 :=
    add_nonneg (div_nonneg (mul_nonneg h1 hin) (by norm_num))
      (div_nonneg (mul_nonneg h2 hcr) (by norm_num))
  have hoc : (0 : ℚ) ≤ (m.outputTokens : ℚ) * p.outputPricePerMillion / 1000000 :=
    div_nonneg (mul_nonneg h3 hout) (by norm_num)
  exact ⟨hic, hoc, add_nonneg hic hoc⟩

/-- C4 witness: the amended statement at model `m` of the exemplar service
with usage (input 2, output 3, cached 1). -/
theorem claim_C4_witness :
    0 ≤ (svcNegEx.Calculate { model := "m", inputTokens := 2, outputTokens := 3, cachedTokens := 1 }).inputCost ∧
    0 ≤ (svcNegEx.Calculate { model := "m", inputTokens := 2, outputTokens := 3, cachedTokens := 1 }).outputCost ∧
    0 ≤ (svcNegEx.Calculate { model := "m", inputTokens := 2, outputTokens := 3, cachedTokens := 1 }).totalCost := by
  exact claim_C4_amended_nonneg svcNegEx
    { model := "m", inputTokens := 2, outputTokens := 3, cachedTokens := 1 }
    ⟨1, 1, 0⟩ rfl (by norm_num) (by norm_num) (by norm_num)
    (by norm_num) (by norm_num) (by norm_num)

/-- C5: the Anthropic parser reports input tokens as raw input plus
cache-read plus cache-creation, cached tokens as cache-read, cache-creation
as cache-creation, and output as the raw output; on usage
`{150, 89, cache_read 2048}` that is input 2198, output 89, cached 2048. -/
theorem claim_C5_anthropic_normalization (resp : AnthropicResponseBody) :
    (AnthropicParser.ParseResponse resp).inputTokens =
        resp.usage.inputTokens + resp.usage.cacheReadInputTokens +
        resp.usage.cacheCreationInputTokens
    ∧ (AnthropicParser.ParseResponse resp).cachedTokens = resp.usage.cacheReadInputTokens
    ∧ (AnthropicParser.ParseResponse resp).cacheCreationTokens =
        resp.usage.cacheCreationInputTokens
    ∧ (AnthropicParser.ParseResponse resp).outputTokens = resp.usage.outputTokens
    ∧ AnthropicParser.ParseResponse ⟨"claude-3-opus-20240229", ⟨150, 89, 2048, 0⟩⟩ =
        { provider := "anthropic", model := "claude-3-opus-20240229",
          inputTokens := 2198, outputTokens := 89, cachedTokens := 2048,
          cacheCreationTokens := 0 } := by
  exact ⟨rfl, rfl, rfl, rfl, rfl⟩

/-- C9: the indexed-metadata map written by the log sink keeps exactly the
raw pairs whose key is active for the owner at write time — so it is a
sub-map of raw, every indexed key is active, and it equals raw when every
raw key is active. -/
theorem claim_C9_metadata_split (o : Nat) (raw : List (String × String))
    (act : Nat → String → Bool) :
    (∀ kv ∈ writeLogIndexedMetadata (some o) raw act, kv ∈ raw ∧ act o kv.1 = true)
    ∧ ((∀ kv ∈ raw, act o kv.1 = true) → writeLogIndexedMetadata (some o) raw act = raw) := by
  constructor
  · intro kv hkv
    have h := List.mem_filter.mp hkv
    exact ⟨h.1, h.2⟩
  · intro hall
    exact List.filter_eq_self.mpr hall

/-- C9 witness: with one raw pair `(team, x)` and every key active, the pair
is kept, its key is active, and the indexed map equals the raw map. -/
theorem claim_C9_witness :
    (("team", "x") ∈ [("team", "x")] ∧ (fun (_ : Nat) (_ : String) => true) 0 "team" = true)
    ∧ writeLogIndexedMetadata (some 0) [("team", "x")] (fun _ _ => true) = [("team", "x")] := by
  refine ⟨?_, ?_⟩
  · exact (claim_C9_metadata_split 0 [("team", "x")] (fun _ _ => true)).1
      ("team", "x") (by simp [writeLogIndexedMetadata])
  · exact (claim_C9_metadata_split 0 [("team", "x")] (fun _ _ => true)).2
      (by intro kv hkv; rfl)

/-- C1: the resolver's owner check is enforced only on the database path.
With the exemplar store (proxy key 1 owned by operator key 10): a fresh
resolver refuses operator key 20 with `wrongOwner`; but once operator key 10
has resolved the key (populating the caches), the very next call by operator
key 20 — whose id differs from the stored owner id 10 — is served the
decrypted credential `sk-real` from the cache, contradicting the claim. -/
theorem claim_C1_cached_call_skips_owner_check :
    proxyStoreEx.getProxyKeyByHash "mdm_pk_k" = .ok (some ⟨1, "mdm_pk_k", 10, true, none⟩)
    ∧ (ResolveProxyKey proxyStoreEx decryptEx id {} 0 "mdm_pk_k" "openai" 20).1 =
        .error .wrongOwner
    ∧ (ResolveProxyKey proxyStoreEx decryptEx id {} 0 "mdm_pk_k" "openai" 10).1 =
        .ok ("sk-real", some 1)
    ∧ (ResolveProxyKey proxyStoreEx decryptEx id resolverStateEx 1 "mdm_pk_k" "openai" 20).1 =
        .ok ("sk-real", some 1) := by
  exact ⟨rfl, rfl, rfl, rfl⟩

/-- C8: under the two authenticated-encryption laws (round trip and
authenticity) and a nonce of the cipher's width: decrypting an encryption
returns the plaintext; every token of decoded length below the nonce width
is rejected; and a plaintext is only ever returned for a token that is
exactly a genuine `nonce ∥ seal(nonce, plaintext)` image — so any tampered
or truncated token yields an error, never a plaintext. -/
theorem claim_C8_secretbox_roundtrip (g : AEADScheme) (nonce p : List Nat)
    (hn : nonce.length = g.nonceSize)
    (hround : ∀ n q, g.gcmOpen n (g.gcmSeal n q) = some q)
    (hauth : ∀ n c q, g.gcmOpen n c = some q → c = g.gcmSeal n q) :
    AESStore.Decrypt g (AESStore.Encrypt g nonce p) = .ok p
    ∧ (∀ d, d.length < g.nonceSize → AESStore.Decrypt g d = .error "ciphertext too short")
    ∧ (∀ d q, AESStore.Decrypt g d = .ok q →
        g.nonceSize ≤ d.length ∧ d = d.take g.nonceSize ++ g.gcmSeal (d.take g.nonceSize) q) := by
  refine ⟨?_, ?_, ?_⟩
  · unfold AESStore.Encrypt AESStore.Decrypt
    have hlen : ¬ ((nonce ++ g.gcmSeal nonce p).length < g.nonceSize) := by
      rw [List.length_append, hn]
      omega
    rw [if_neg hlen]
    have ht : (nonce ++ g.gcmSeal nonce p).take g.nonceSize = nonce := by
      rw [← hn]
      exact List.take_left nonce _
    have hd : (nonce ++ g.gcmSeal nonce p).drop g.nonceSize = g.gcmSeal nonce p := by
      rw [← hn]
      exact List.drop_left nonce _
    rw [ht, hd, hround]
  · intro d hlt
    unfold AESStore.Decrypt
    rw [if_pos hlt]
  · intro d q hok
    unfold AESStore.Decrypt at hok
    by_cases hlt : d.length < g.nonceSize
    · rw [if_pos hlt] at hok
      cases hok
    · rw [if_neg hlt] at hok
      refine ⟨le_of_not_lt hlt, ?_⟩
      rcases hopen : g.gcmOpen (d.take g.nonceSize) (d.drop g.nonceSize) with _ | pt
      · rw [hopen] at hok
        cases hok
      · rw [hopen] at hok
        injection hok with hpt
        subst hpt
        have hc := hauth _ _ _ hopen
        conv_lhs => rw [← List.take_append_drop g.nonceSize d]
        rw [hc]

/-- C8 witness: the identity cipher (which satisfies both laws) on nonce
`[0, 1]` and plaintext `[5, 6]`, plus rejection of the one-byte token. -/
theorem claim_C8_witness :
    AESStore.Decrypt aeadIdEx (AESStore.Encrypt aeadIdEx [0, 1] [5, 6]) = .ok [5, 6]
    ∧ AESStore.Decrypt aeadIdEx [9] = .error "ciphertext too short" := by
  have h := claim_C8_secretbox_roundtrip aeadIdEx [0, 1] [5, 6] rfl (fun _ _ => rfl)
      (fun n c q hq => Option.some.inj hq)
  exact ⟨h.1, h.2.1 [9] (by decide)⟩

/-- C10: a present provider header naming none of the recognized providers
yields the `unknown` tag with an empty base URL — no path fallback. -/
theorem claim_C10_unknown_header (path name : String) (headers : String → Option String)
    (hsome : headers "x-majordomo-provider" = some name)
    (hn : goToLower name ∉ ["openai", "anthropic", "gemini", "gemini-openai",
        "anthropic-openai", "azure", "bedrock"]) :
    Detect path headers = ⟨"unknown", ""⟩ := by
  simp only [Detect, hsome]
  unfold resolveExplicitProvider
  split
  all_goals first
    | rfl
    | (exfalso; simp_all)

/-- C10 witness: a misspelled header value on an Anthropic-shaped path. -/
theorem claim_C10_witness :
    Detect "/v1/messages"
      (fun k => if k = "x-majordomo-provider" then some "Gibberish" else none) =
      ⟨"unknown", ""⟩ := by
  exact claim_C10_unknown_header "/v1/messages" "Gibberish" _ rfl (by decide)

/-- The switch of `resolveExplicitProvider` agrees with a lookup in the
spec's provider table, defaulting to `unknown`. -/
lemma resolveExplicitProvider_eq_lookup (name : String) :
    resolveExplicitProvider name =
      (recognizedProviders.lookup (goToLower name)).getD ⟨"unknown", ""⟩ := by
  unfold resolveExplicitProvider
  split
  all_goals
    solve
      | simp_all [recognizedProviders, List.lookup]
      | simp [recognizedProviders, List.lookup,
          beq_eq_false_iff_ne.mpr ‹goToLower name ≠ "openai"›,
          beq_eq_false_iff_ne.mpr ‹goToLower name ≠ "anthropic"›,
          beq_eq_false_iff_ne.mpr ‹goToLower name ≠ "gemini"›,
          beq_eq_false_iff_ne.mpr ‹goToLower name ≠ "gemini-openai"›,
          beq_eq_false_iff_ne.mpr ‹goToLower name ≠ "anthropic-openai"›,
          beq_eq_false_iff_ne.mpr ‹goToLower name ≠ "azure"›,
          beq_eq_false_iff_ne.mpr ‹goToLower name ≠ "bedrock"›]

/-- C7 counterexample: with a provider header naming nothing recognized and
the path `/v1/messages`, detection returns `unknown` — not the `anthropic`
result the claim's path rules would give. -/
theorem claim_C7_counterexample :
    Detect "/v1/messages"
        (fun k => if k = "x-majordomo-provider" then some "anthropik" else none) =
      ⟨"unknown", ""⟩
    ∧ (⟨"unknown", ""⟩ : ProviderInfo) ≠ ⟨"anthropic", "https://api.anthropic.com"⟩
    ∧ detectFromPath "/v1/messages" = ⟨"anthropic", "https://api.anthropic.com"⟩ := by
  refine ⟨rfl, by decide, rfl⟩

/-- C7 amended: when the provider header is present, detection returns the
table entry for its lower-cased value, `unknown` with empty base URL when
it names none; path rules apply only when the header is absent. -/
theorem claim_C7_amended_detection (path : String) (headers : String → Option String) :
    (∀ name, headers "x-majordomo-provider" = some name →
      Detect path headers = (recognizedProviders.lookup (goToLower name)).getD ⟨"unknown", ""⟩)
    ∧ (headers "x-majordomo-provider" = none →
      Detect path headers =
        if (goStartsWith path "/v1/chat/completions" || goStartsWith path "/v1/completions"
            || goStartsWith path "/v1/embeddings" || goStartsWith path "/v1/responses") = true then
          ⟨"openai", "https://api.openai.com"⟩
        else if goStartsWith path "/v1/messages" = true then
          ⟨"anthropic", "https://api.anthropic.com"⟩
        else if (goContainsSub path "generateContent"
            || goContainsSub path "streamGenerateContent") = true then
          ⟨"gemini", "https://generativelanguage.googleapis.com"⟩
        else ⟨"openai", "https://api.openai.com"⟩) := by
  constructor
  · intro name h
    simp only [Detect, h]
    exact resolveExplicitProvider_eq_lookup name
  · intro h
    simp only [Detect, h, detectFromPath]

/-- C7 witness: both branches of the amended statement at concrete inputs —
an explicit `Azure` header wins over an OpenAI-shaped path, and with no
header the path `/v1/embeddings` detects openai. -/
theorem claim_C7_witness :
    Detect "/v1/chat/completions"
        (fun k => if k = "x-majordomo-provider" then some "Azure" else none) = ⟨"azure", ""⟩
    ∧ Detect "/v1/embeddings" (fun _ => none) = ⟨"openai", "https://api.openai.com"⟩ := by
  constructor
  · have h := (claim_C7_amended_detection "/v1/chat/completions"
        (fun k => if k = "x-majordomo-provider" then some "Azure" else none)).1 "Azure" rfl
    rw [h]
    rfl
  · have h := (claim_C7_amended_detection "/v1/embeddings" (fun _ => none)).2 rfl
    rw [h]
    rfl

/-- The translation loop, characterized: its first component is the content
of the last system-role message (else the initial accumulator), its second
appends the non-system messages in order. -/
lemma translate_loop_characterization (msgs : List OpenAIMessage) (s0 : String)
    (a0 : List AnthropicMessage) :
    msgs.foldl
      (fun (acc : String × List AnthropicMessage) msg =>
        if msg.role = "system" then (msg.content, acc.2)
        else (acc.1, acc.2 ++ [⟨msg.role, msg.content⟩]))
      (s0, a0) =
    ((((msgs.filter fun m => m.role == "system").getLast?.map fun m => m.content).getD s0,
      a0 ++ (msgs.filter fun m => !(m.role == "system")).map
        fun m => (⟨m.role, m.content⟩ : AnthropicMessage))) := by
  induction msgs generalizing s0 a0 with
  | nil => simp
  | cons m t ih =>
    by_cases hm : m.role = "system"
    · rw [List.foldl_cons, if_pos hm, ih]
      rw [List.filter_cons, List.filter_cons]
      simp only [hm, beq_self_eq_true, if_pos, Bool.not_true, Bool.false_eq_true,
        if_neg, ite_true, ite_false]
      rcases hl : (t.filter fun m => m.role == "system").getLast? with _ | last
      · simp [List.getLast?_cons, hl]
      · simp [List.getLast?_cons, hl]
    · rw [List.foldl_cons, if_neg hm, ih]
      rw [List.filter_cons, List.filter_cons]
      have hb : (m.role == "system") = false := beq_eq_false_iff_ne.mpr hm
      simp [hb]

/-- C6 counterexample: on messages `[system A, user u, system B]` the
translation's top-level system field is `B` (the LAST system message) — the
claim's "the first system-role message's content becomes the system field"
fails — and both system messages are dropped. -/
theorem claim_C6_counterexample :
    (TranslateOpenAIToAnthropic
        { model := "c", messages := [⟨"system", "A"⟩, ⟨"user", "u"⟩, ⟨"system", "B"⟩] }).1.system
      = "B"
    ∧ ("B" : String) ≠ "A"
    ∧ (TranslateOpenAIToAnthropic
        { model := "c", messages := [⟨"system", "A"⟩, ⟨"user", "u"⟩, ⟨"system", "B"⟩] }).1.messages
      = [⟨"user", "u"⟩] := by
  refine ⟨rfl, by decide, rfl⟩

/-- C6 amended: translation lifts the LAST system-role message's content
into the top-level system field (empty if none), drops ALL system-role
messages, keeps the rest in order, defaults `max_tokens` to 4096 when the
request carries none, and rewrites the path to `/v1/messages`. -/
theorem claim_C6_amended_translation (req : OpenAIRequestBody) :
    (TranslateOpenAIToAnthropic req).2 = "/v1/messages"
    ∧ (TranslateOpenAIToAnthropic req).1.model = req.model
    ∧ (TranslateOpenAIToAnthropic req).1.maxTokens = req.maxTokens.getD 4096
    ∧ (TranslateOpenAIToAnthropic req).1.messages =
        (req.messages.filter fun m => !(m.role == "system")).map
          (fun m => (⟨m.role, m.content⟩ : AnthropicMessage))
    ∧ (TranslateOpenAIToAnthropic req).1.system =
        ((req.messages.filter fun m => m.role == "system").getLast?.map
          (fun m => m.content)).getD "" := by
  have hfold := translate_loop_characterization req.messages "" []
  refine ⟨rfl, rfl, ?_, ?_, ?_⟩
  · cases h : req.maxTokens <;> simp [TranslateOpenAIToAnthropic, h]
  · show (req.messages.foldl _ ("", [])).2 = _
    rw [hfold]
    exact List.nil_append _
  · show (req.messages.foldl _ ("", [])).1 = _
    rw [hfold]
